import Mathlib

/-!
Verification of the `echor` command-line core, the `hello` binary and the
guessing-game input loop from the `learning_rust` repository, as a shallow
embedding in Lean 4.
-/

namespace Echor

/-- Recognizer for the two flag tokens declared for the `omit_newline`
argument in `src/eg/echor.rs`: `.short("n")` and `.long("omit_newline")`. -/
def is_flag_token (t : String) : Bool :=
  t == "-n" || t == "--omit_newline"

/-- Modelled from the spec: the usage message printed by the argument parser
when the required positional `TEXT` values are absent (the parsing library
the declarative schema in `src/eg/echor.rs` binds to is not under `src/`).
The spec requires a human-readable message containing the literal substring
`"USAGE"` on the error channel. -/
def usage_message : String :=
  "error: The following required arguments were not provided:\n    <TEXT>...\n\nUSAGE:\n    echor [FLAGS] <TEXT>...\n\nFor more information try --help"

/-- The result of matching the raw argument tokens against the schema of
`src/eg/echor.rs`: the lossy values of the `text` argument (an `Option`, as
`values_of_lossy` returns in the source) and the presence bit of the
`omit_newline` flag. -/
structure ArgMatches where
  values_of_lossy_text : Option (List String)
  is_present_omit_newline : Bool
deriving DecidableEq, Repr

/-- Modelled from the spec: `get_matches` for the schema declared in
`src/eg/echor.rs` (the parsing library itself is not under `src/`). Per the
spec: `-n` or `--omit_newline` anywhere in the argument list sets the flag
and consumes no value; every other token is a positional text segment, kept
in original order; zero positional segments is a usage failure whose message
contains `"USAGE"`. -/
def get_matches (args : List String) : Except String ArgMatches :=
  if (args.filter (fun t => ! is_flag_token t)).isEmpty then
    Except.error usage_message
  else
    Except.ok ⟨some (args.filter (fun t => ! is_flag_token t)),
               args.any is_flag_token⟩

/-- The parsed, validated representation of a single program run:
`text_segments` (one per positional argument, in order) and the
`omit_newline` flag. -/
structure InvocationConfig where
  text_segments : List String
  omit_newline : Bool
deriving DecidableEq, Repr

/-- Parsing as performed by `main` in `src/eg/echor.rs`: match the raw
arguments, then read `values_of_lossy("text")` (the source unwraps it; here
the `none` case is defaulted, and `values_of_text_is_some` shows it never
occurs) and `is_present("omit_newline")`. -/
def parse (args : List String) : Except String InvocationConfig :=
  match get_matches args with
  | Except.error e => Except.error e
  | Except.ok m =>
      Except.ok ⟨m.values_of_lossy_text.getD [], m.is_present_omit_newline⟩

/-- The output produced by the `print!` in `src/eg/echor.rs`: the text
segments joined with a single space, followed by a newline unless
`omit_newline` is set. -/
def emit (c : InvocationConfig) : String :=
  String.intercalate " " c.text_segments ++ (if c.omit_newline then "" else "\n")

/-- Observable outcome of one process run: what was written to standard
output, what was written to standard error, and the exit status. -/
structure RunResult where
  stdout : String
  stderr : String
  exitCode : Nat
deriving DecidableEq, Repr

/-- One full run of the `echor` binary on an argument list: on a successful
parse, the joined text goes to standard output and the process exits 0; on a
usage failure the message goes to standard error and the process exits with
a non-zero status. -/
def run (args : List String) : RunResult :=
  match parse args with
  | Except.ok c => ⟨emit c, "", 0⟩
  | Except.error e => ⟨"", e, 1⟩

end Echor

namespace Hello

/-- Modelled from the spec: the `hello` binary's `main` (its source file is
not under `src/`; only its tests, `src/hello/tests/cargo_bin.rs` and
`src/eg/check_hello.rs`, are). The spec describes the program as a
"hello world" binary, and its tests assert that a run succeeds and writes
exactly `"Hello, world!\n"` to standard output. -/
def run : Echor.RunResult := ⟨"Hello, world!\n", "", 0⟩

end Hello

namespace GuessingGame

/-- Rust `str::trim` as applied in `src/guessing_game/src/main.rs`: removes
leading and trailing whitespace (modelled with `Char.isWhitespace`, which
covers the space, tab, carriage-return and line-feed characters a line read
from standard input can carry at its ends). -/
def rust_trim (s : String) : String :=
  String.mk (((s.data.dropWhile Char.isWhitespace).reverse.dropWhile
    Char.isWhitespace).reverse)

/-- Rust `str::parse::<u32>` as applied in `src/guessing_game/src/main.rs`:
accepts an optional leading `+` followed by one or more ASCII digits, and
fails on the empty string, on any other character, and on values exceeding
`u32::MAX` (4294967295). -/
def rust_parse_u32 (s : String) : Option Nat :=
  let cs := if s.data.head? = some (Char.ofNat 43) then s.data.tail else s.data
  if cs.isEmpty then none
  else if cs.all Char.isDigit then
    let v := cs.foldl (fun acc c => acc * 10 + (c.toNat - 48)) 0
    if v ≤ 4294967295 then some v else none
  else none

/-- Whether the guessing-game loop continues with another iteration or
breaks out. -/
inductive LoopAction where
  | continueLoop
  | breakLoop
deriving DecidableEq, Repr

/-- What one iteration of the guessing-game loop produces: the lines it
prints, in order, and whether the loop continues or breaks. -/
structure IterResult where
  printed : List String
  action : LoopAction
deriving DecidableEq, Repr

/-- The prompt printed at the top of every loop iteration in
`src/guessing_game/src/main.rs`. -/
def prompt : String := "Please input your guess."

/-- One iteration of the `loop` in `src/guessing_game/src/main.rs`, given
the secret number and the line read from standard input: print the prompt,
trim the line and parse it as a `u32` (on failure, `continue` with no
further output and no comparison), print `"You guessed: "` followed by the
guess, then compare guess and secret and print `"Too small!"` (guess less),
`"Too big!"` (guess greater), or `"You win!"` followed by `break`
(equal). -/
def iteration (secret : Nat) (line : String) : IterResult :=
  match rust_parse_u32 (rust_trim line) with
  | none => ⟨[prompt], LoopAction.continueLoop⟩
  | some guess =>
      if guess < secret then
        ⟨[prompt, "You guessed: " ++ toString guess, "Too small!"],
         LoopAction.continueLoop⟩
      else if guess > secret then
        ⟨[prompt, "You guessed: " ++ toString guess, "Too big!"],
         LoopAction.continueLoop⟩
      else
        ⟨[prompt, "You guessed: " ++ toString guess, "You win!"],
         LoopAction.breakLoop⟩

end GuessingGame

theorem filter_eq_self_of_no_flags (T : List String)
    (h : ∀ t ∈ T, Echor.is_flag_token t = false) :
    T.filter (fun t => ! Echor.is_flag_token t) = T :=
  List.filter_eq_self.mpr (fun t ht => by simp [h t ht])

theorem any_flag_eq_false_of_no_flags (T : List String)
    (h : ∀ t ∈ T, Echor.is_flag_token t = false) :
    T.any Echor.is_flag_token = false := by
  rw [List.any_eq_false]
  intro t ht
  simp [h t ht]

theorem parse_ok_iff (args : List String) (c : Echor.InvocationConfig) :
    Echor.parse args = Except.ok c ↔
      (args.filter (fun t => ! Echor.is_flag_token t)).isEmpty = false ∧
      c = ⟨args.filter (fun t => ! Echor.is_flag_token t),
           args.any Echor.is_flag_token⟩ := by
  unfold Echor.parse Echor.get_matches
  cases hcond : (args.filter (fun t => ! Echor.is_flag_token t)).isEmpty with
  | true => simp
  | false => simp [eq_comm, Echor.InvocationConfig.mk.injEq]

set_option maxRecDepth 16384 in
/-- C2: parsing the empty argument list always fails: the run writes a
message containing the literal substring `"USAGE"` to standard error,
writes nothing to standard output, and exits with a non-zero status. -/
theorem echor_no_args_usage_error :
    (Echor.run []).stdout = "" ∧
    "USAGE".data <:+: (Echor.run []).stderr.data ∧
    (Echor.run []).exitCode ≠ 0 := by
  refine ⟨rfl, ?_, by decide⟩
  exact ⟨("error: The following required arguments were not provided:\n    <TEXT>...\n\n").data,
         (":\n    echor [FLAGS] <TEXT>...\n\nFor more information try --help").data,
         by decide⟩

/-- C4: parsing `["-n", "Hello", "there"]` and `["Hello", "there", "-n"]`
yields identical configurations — text segments `["Hello", "there"]` in that
order with `omit_newline = true` — and hence identical run output. -/
theorem echor_flag_position_independence :
    Echor.parse ["-n", "Hello", "there"] = Echor.parse ["Hello", "there", "-n"] ∧
    Echor.parse ["-n", "Hello", "there"] =
      Except.ok ⟨["Hello", "there"], true⟩ ∧
    Echor.run ["-n", "Hello", "there"] = Echor.run ["Hello", "there", "-n"] :=
  ⟨rfl, rfl, rfl⟩

/-- C1: for every non-empty sequence of positional text segments `T` and
boolean `n`, running echor on `T` with the `-n` flag appended when `n` is
true writes exactly `join(T, " ")` followed by a newline when `n` is false
and by nothing when `n` is true to standard output, and exits with status
0. -/
theorem echor_success_output (T : List String) (n : Bool)
    (hne : T ≠ []) (hseg : ∀ t ∈ T, Echor.is_flag_token t = false) :
    Echor.run (T ++ (if n then ["-n"] else [])) =
      ⟨String.intercalate " " T ++ (if n then "" else "\n"), "", 0⟩ := by
  have hfilter : (T ++ (if n then ["-n"] else [])).filter
      (fun t => ! Echor.is_flag_token t) = T := by
    rw [List.filter_append, filter_eq_self_of_no_flags T hseg]
    cases n <;> simp [Echor.is_flag_token]
  have hany : (T ++ (if n then ["-n"] else [])).any Echor.is_flag_token = n := by
    rw [List.any_append, any_flag_eq_false_of_no_flags T hseg]
    cases n <;> simp [Echor.is_flag_token]
  have hempty : T.isEmpty = false := by
    cases T with
    | nil => exact absurd rfl hne
    | cons a l => rfl
  simp [Echor.run, Echor.parse, Echor.get_matches, hfilter, hany, hempty,
    Echor.emit]

theorem echor_success_output_witness :
    Echor.run (["Hello", "there"] ++ (if true then ["-n"] else [])) =
      ⟨String.intercalate " " ["Hello", "there"] ++
        (if true then "" else "\n"), "", 0⟩ :=
  echor_success_output ["Hello", "there"] true (by decide) (by decide)

/-- C3: for every argument sequence containing at least one token that is
not `-n` and not `--omit_newline`, parsing succeeds with no further
validation, and every such token, in its original relative order, becomes a
positional text segment. -/
theorem echor_parse_accepts_any_nonflag (args : List String)
    (h : ∃ t ∈ args, Echor.is_flag_token t = false) :
    Echor.parse args =
      Except.ok ⟨args.filter (fun t => ! Echor.is_flag_token t),
                 args.any Echor.is_flag_token⟩ := by
  obtain ⟨t, ht, hft⟩ := h
  have hmem : t ∈ args.filter (fun t => ! Echor.is_flag_token t) :=
    List.mem_filter.mpr ⟨ht, by simp [hft]⟩
  have hempty : (args.filter (fun t => ! Echor.is_flag_token t)).isEmpty = false := by
    cases hf : args.filter (fun t => ! Echor.is_flag_token t) with
    | nil => rw [hf] at hmem; exact absurd hmem (List.not_mem_nil t)
    | cons a l => rfl
  exact (parse_ok_iff args _).mpr ⟨hempty, rfl⟩

theorem echor_parse_accepts_any_nonflag_witness :
    Echor.parse ["hello", "-n"] = Except.ok ⟨["hello"], true⟩ := by
  have h := echor_parse_accepts_any_nonflag ["hello", "-n"]
    ⟨"hello", by decide, by decide⟩
  exact h.trans rfl

/-- C5: the short token `-n` and the long token `--omit_newline` are
interchangeable: either one, present anywhere in the argument list, sets
`omit_newline` to true, absence leaves it false, and the flag consumes no
value — the tokens following the flag are still positional text segments. -/
theorem echor_flag_interchangeable (pre post : List String) (f : String)
    (hf : f = "-n" ∨ f = "--omit_newline")
    (hseg : ∀ t ∈ pre ++ post, Echor.is_flag_token t = false)
    (hne : pre ++ post ≠ []) :
    Echor.parse (pre ++ f :: post) = Except.ok ⟨pre ++ post, true⟩ ∧
    Echor.parse (pre ++ post) = Except.ok ⟨pre ++ post, false⟩ := by
  have hflag : Echor.is_flag_token f = true := by
    rcases hf with rfl | rfl <;> rfl
  have hpre : ∀ t ∈ pre, Echor.is_flag_token t = false :=
    fun t ht => hseg t (List.mem_append_left _ ht)
  have hpost : ∀ t ∈ post, Echor.is_flag_token t = false :=
    fun t ht => hseg t (List.mem_append_right _ ht)
  have hfilter0 : (pre ++ post).filter (fun t => ! Echor.is_flag_token t) =
      pre ++ post := filter_eq_self_of_no_flags _ hseg
  have hfilter1 : (pre ++ f :: post).filter (fun t => ! Echor.is_flag_token t) =
      pre ++ post := by
    rw [List.filter_append, filter_eq_self_of_no_flags pre hpre,
      List.filter_cons]
    simp [hflag, filter_eq_self_of_no_flags post hpost]
  have hany1 : (pre ++ f :: post).any Echor.is_flag_token = true := by
    simp [List.any_append, List.any_cons, hflag]
  have hempty : (pre ++ post).isEmpty = false := by
    cases h : pre ++ post with
    | nil => exact absurd h hne
    | cons a l => rfl
  constructor
  · refine (parse_ok_iff _ _).mpr ⟨by rw [hfilter1]; exact hempty, ?_⟩
    rw [hfilter1, hany1]
  · refine (parse_ok_iff _ _).mpr ⟨by rw [hfilter0]; exact hempty, ?_⟩
    rw [hfilter0, any_flag_eq_false_of_no_flags _ hseg]

theorem echor_flag_interchangeable_witness :
    Echor.parse (["Hello"] ++ "--omit_newline" :: ["there"]) =
      Except.ok ⟨["Hello"] ++ ["there"], true⟩ ∧
    Echor.parse (["Hello"] ++ ["there"]) =
      Except.ok ⟨["Hello"] ++ ["there"], false⟩ :=
  echor_flag_interchangeable ["Hello"] ["there"] "--omit_newline"
    (Or.inr rfl) (by decide) (by decide)

/-- C6: every configuration produced by a successful parse has a non-empty
sequence of text segments, and the argument list must have contained at
least one positional (non-flag) token — a run with zero positional
arguments never constructs a configuration. -/
theorem echor_config_text_nonempty (args : List String)
    (c : Echor.InvocationConfig) (h : Echor.parse args = Except.ok c) :
    c.text_segments ≠ [] ∧ ∃ t ∈ args, Echor.is_flag_token t = false := by
  obtain ⟨hne, rfl⟩ := (parse_ok_iff args c).mp h
  have hfne : args.filter (fun t => ! Echor.is_flag_token t) ≠ [] := by
    intro hnil
    rw [hnil] at hne
    simp at hne
  refine ⟨hfne, ?_⟩
  obtain ⟨a, l, hal⟩ := List.exists_cons_of_ne_nil hfne
  have ha : a ∈ args.filter (fun t => ! Echor.is_flag_token t) := by
    rw [hal]; exact List.mem_cons_self a l
  have hm := List.mem_filter.mp ha
  exact ⟨a, hm.1, by simpa using hm.2⟩

theorem echor_config_text_nonempty_witness :
    (⟨["hello"], false⟩ : Echor.InvocationConfig).text_segments ≠ [] ∧
    ∃ t ∈ ["hello"], Echor.is_flag_token t = false :=
  echor_config_text_nonempty ["hello"] ⟨["hello"], false⟩ rfl

/-- C7: on a successful run, the joined text written to standard output is
the only observable effect: standard error receives nothing and the exit
status is 0. -/
theorem echor_run_success_frame (args : List String)
    (c : Echor.InvocationConfig) (h : Echor.parse args = Except.ok c) :
    (Echor.run args).stdout = Echor.emit c ∧
    (Echor.run args).stderr = "" ∧ (Echor.run args).exitCode = 0 := by
  unfold Echor.run
  rw [h]
  exact ⟨rfl, rfl, rfl⟩

theorem echor_run_success_frame_witness :
    (Echor.run ["hello"]).stdout = Echor.emit ⟨["hello"], false⟩ ∧
    (Echor.run ["hello"]).stderr = "" ∧ (Echor.run ["hello"]).exitCode = 0 :=
  echor_run_success_frame ["hello"] ⟨["hello"], false⟩ rfl

/-- C8: whenever argument matching returns (instead of failing with a usage
error), the lookup of the `text` values is always `some`, so the unwrap on
the result of `values_of_lossy("text")` in `src/eg/echor.rs` never
panics. -/
theorem echor_values_of_text_is_some (args : List String)
    (m : Echor.ArgMatches) (h : Echor.get_matches args = Except.ok m) :
    m.values_of_lossy_text.isSome = true := by
  unfold Echor.get_matches at h
  by_cases he : (args.filter (fun t => ! Echor.is_flag_token t)).isEmpty = true
  · rw [if_pos he] at h
    cases h
  · rw [if_neg he] at h
    cases h
    rfl

theorem echor_values_of_text_is_some_witness :
    (⟨some ["hello"], false⟩ : Echor.ArgMatches).values_of_lossy_text.isSome = true :=
  echor_values_of_text_is_some ["hello"] ⟨some ["hello"], false⟩ rfl

/-- C9: the hello binary, invoked with no arguments, always exits
successfully and writes exactly the string `"Hello, world!\n"` to standard
output. -/
theorem hello_output :
    Hello.run.stdout = "Hello, world!\n" ∧ Hello.run.stderr = "" ∧
    Hello.run.exitCode = 0 :=
  ⟨rfl, rfl, rfl⟩


theorem you_guessed_ne_you_win (x : String) :
    ("You guessed: " ++ x) ≠ "You win!" := by
  intro h
  have hlen := congrArg String.length h
  rw [String.length_append] at hlen
  have h13 : ("You guessed: " : String).length = 13 := rfl
  have h8 : ("You win!" : String).length = 8 := rfl
  rw [h13, h8] at hlen
  omega

theorem iteration_parse_some (secret g : Nat) (line : String)
    (hp : GuessingGame.rust_parse_u32 (GuessingGame.rust_trim line) = some g) :
    GuessingGame.iteration secret line =
      if g < secret then
        ⟨[GuessingGame.prompt, "You guessed: " ++ toString g, "Too small!"],
         GuessingGame.LoopAction.continueLoop⟩
      else if g > secret then
        ⟨[GuessingGame.prompt, "You guessed: " ++ toString g, "Too big!"],
         GuessingGame.LoopAction.continueLoop⟩
      else
        ⟨[GuessingGame.prompt, "You guessed: " ++ toString g, "You win!"],
         GuessingGame.LoopAction.breakLoop⟩ := by
  unfold GuessingGame.iteration
  rw [hp]

/-- C10: in the guessing game's input loop, `"You win!"` is printed and the
loop exits exactly when the current line, trimmed and parsed as a `u32`,
equals the secret number; a line that fails to parse makes the loop continue
with no comparison output; a parsed guess strictly less than (respectively
greater than) the secret prints `"Too small!"` (respectively `"Too big!"`)
and the loop re-prompts. -/
theorem guessing_game_loop_behavior (secret : Nat) (line : String) :
    ("You win!" ∈ (GuessingGame.iteration secret line).printed ↔
       GuessingGame.rust_parse_u32 (GuessingGame.rust_trim line) = some secret) ∧
    ((GuessingGame.iteration secret line).action =
        GuessingGame.LoopAction.breakLoop ↔
       GuessingGame.rust_parse_u32 (GuessingGame.rust_trim line) = some secret) ∧
    (GuessingGame.rust_parse_u32 (GuessingGame.rust_trim line) = none →
       GuessingGame.iteration secret line =
         ⟨[GuessingGame.prompt], GuessingGame.LoopAction.continueLoop⟩) ∧
    (∀ g, GuessingGame.rust_parse_u32 (GuessingGame.rust_trim line) = some g →
       g < secret →
       GuessingGame.iteration secret line =
         ⟨[GuessingGame.prompt, "You guessed: " ++ toString g, "Too small!"],
          GuessingGame.LoopAction.continueLoop⟩) ∧
    (∀ g, GuessingGame.rust_parse_u32 (GuessingGame.rust_trim line) = some g →
       g > secret →
       GuessingGame.iteration secret line =
         ⟨[GuessingGame.prompt, "You guessed: " ++ toString g, "Too big!"],
          GuessingGame.LoopAction.continueLoop⟩) := by
  cases hp : GuessingGame.rust_parse_u32 (GuessingGame.rust_trim line) with
  | none =>
      have hit : GuessingGame.iteration secret line =
          ⟨[GuessingGame.prompt], GuessingGame.LoopAction.continueLoop⟩ := by
        unfold GuessingGame.iteration
        rw [hp]
      rw [hit]
      refine ⟨?_, ?_, fun _ => rfl, fun g h => Option.noConfusion h,
        fun g h => Option.noConfusion h⟩
      · constructor
        · intro hmem
          exact absurd (List.mem_singleton.mp hmem) (by decide)
        · intro hs
          exact Option.noConfusion hs
      · constructor
        · intro h
          exact absurd h (by decide)
        · intro hs
          exact Option.noConfusion hs
  | some g =>
      have hnwin2 : "You win!" ≠ "You guessed: " ++ toString g :=
        fun h => you_guessed_ne_you_win (toString g) h.symm
      rcases Nat.lt_trichotomy g secret with hlt | heq | hgt
      · rw [iteration_parse_some secret g line hp, if_pos hlt]
        refine ⟨?_, ?_, fun h => Option.noConfusion h, ?_, ?_⟩
        · constructor
          · intro hmem
            rcases List.mem_cons.mp hmem with h1 | hmem
            · exact absurd h1 (by decide)
            rcases List.mem_cons.mp hmem with h2 | hmem
            · exact absurd h2 hnwin2
            rcases List.mem_cons.mp hmem with h3 | hmem
            · exact absurd h3 (by decide)
            · exact absurd hmem (List.not_mem_nil _)
          · intro hs
            exact absurd (Option.some.inj hs) (by omega)
        · constructor
          · intro h
            exact absurd h (by nomatch h)
          · intro hs
            exact absurd (Option.some.inj hs) (by omega)
        · intro g2 h hlt2
          obtain rfl := Option.some.inj h
          rfl
        · intro g2 h hgt2
          obtain rfl := Option.some.inj h
          exact absurd hgt2 (by omega)
      · subst heq
        rw [iteration_parse_some g g line hp, if_neg (Nat.lt_irrefl g),
          if_neg (Nat.lt_irrefl g)]
        refine ⟨?_, ?_, fun h => Option.noConfusion h, ?_, ?_⟩
        · constructor
          · intro _
            rfl
          · intro _
            exact List.mem_cons_of_mem _ (List.mem_cons_of_mem _
              (List.mem_cons_self _ _))
        · exact ⟨fun _ => rfl, fun _ => rfl⟩
        · intro g2 h hlt2
          obtain rfl := Option.some.inj h
          exact absurd hlt2 (Nat.lt_irrefl _)
        · intro g2 h hgt2
          obtain rfl := Option.some.inj h
          exact absurd hgt2 (Nat.lt_irrefl _)
      · rw [iteration_parse_some secret g line hp, if_neg (by omega), if_pos hgt]
        refine ⟨?_, ?_, fun h => Option.noConfusion h, ?_, ?_⟩
        · constructor
          · intro hmem
            rcases List.mem_cons.mp hmem with h1 | hmem
            · exact absurd h1 (by decide)
            rcases List.mem_cons.mp hmem with h2 | hmem
            · exact absurd h2 hnwin2
            rcases List.mem_cons.mp hmem with h3 | hmem
            · exact absurd h3 (by decide)
            · exact absurd hmem (List.not_mem_nil _)
          · intro hs
            exact absurd (Option.some.inj hs) (by omega)
        · constructor
          · intro h
            exact absurd h (by nomatch h)
          · intro hs
            exact absurd (Option.some.inj hs) (by omega)
        · intro g2 h hlt2
          obtain rfl := Option.some.inj h
          exact absurd hlt2 (by omega)
        · intro g2 h hgt2
          obtain rfl := Option.some.inj h
          rfl

theorem guessing_game_loop_behavior_witness :
    GuessingGame.iteration 50 " 10\n" =
      ⟨[GuessingGame.prompt, "You guessed: " ++ toString 10, "Too small!"],
       GuessingGame.LoopAction.continueLoop⟩ :=
  (guessing_game_loop_behavior 50 " 10\n").2.2.2.1 10 (by decide) (by decide)
